import Mathlib

/-!
# apnstest: the server's binary protocol codec

A shallow embedding of `server/src/server.go`: the 5-byte command header
reader (`ParseCommandStart`), the item (tag-length-value) decoder
(`ParseItems`, `parseItem`), the display functions (`Item.String`,
`Command.String`), the error frame (`ErrorResponse.ToBytes`,
`ErrorResponse.Error`) and the read loop of `RunEchoServer`.

Conventions of the embedding.
* A byte is a natural number below 256, a byte slice is a `List Nat`.
  `uint16` and `uint32` values are natural numbers below `2^16` and `2^32`.
* The interface `io.Reader` is the class `IoReader`: a state with a method
  `Read`. `ParseCommandStart`, `ParseItems` and the read loop take any reader.
  Two readers are given. `Reader` is `bytes.Reader`, the unread bytes of a
  slice: it is the reader the item loop runs on (`bytes.NewReader(buf)`).
  `Conn` is a connection as `RunEchoServer` reads it: the bytes arrive in
  records, a `Read` hands over bytes of one record at most, and the end of the
  stream is reported by a `Read` of its own or together with the last bytes.
* A Go `string` is a byte sequence; it is modelled by the Lean `String` whose
  characters are those bytes.
* A function that can panic returns `Except GoPanic _`; a function that
  returns a Go `error` returns `Except GoError _` or carries an
  `Option GoError`.
-/

set_option linter.dupNamespace false

namespace Apns

/-! ## Go runtime and standard library -/

/-- The `error` values that reach the code: `io.EOF` and `io.ErrUnexpectedEOF`. -/
inductive GoError
  | EOF
  | ErrUnexpectedEOF
  deriving DecidableEq, Repr

/-- What a panic carries: the error given to `panic(err)`, or the runtime's
index-out-of-range error. -/
inductive GoPanic
  | err (e : GoError)
  | indexOutOfRange
  deriving DecidableEq, Repr

deriving instance DecidableEq for Except

/-- An `io.Reader` over a byte sequence, given by the bytes not yet read. -/
abbrev Reader := List Nat

/-- The slice `make([]byte, n)`: `n` zero bytes. -/
def makeBytes (n : Nat) : List Nat := List.replicate n 0

/-- The method `(*bytes.Reader).Read(b)`: at the end of the data it returns
`(0, io.EOF)` and leaves `b` alone (also when `b` is empty); otherwise it
copies `n = min(len(b), remaining)` bytes to the front of `b` and returns
`(n, nil)`. The result is the buffer after the call, the count, the error,
and the reader after the call. -/
def Reader.Read (r : Reader) (b : List Nat) : (List Nat × Nat × Option GoError) × Reader :=
  if r.length = 0 then ((b, 0, some GoError.EOF), r)
  else
    let n := min b.length r.length
    ((r.take n ++ b.drop n, n, none), r.drop n)

/-- The interface `io.Reader`: a reader state with its method `Read`, which
is given the buffer and returns the buffer after the call, the count, the
error, and the reader after the call. -/
class IoReader (σ : Type) where
  Read : σ → List Nat → (List Nat × Nat × Option GoError) × σ

instance : IoReader Reader := ⟨Reader.Read⟩

/-- A connection accepted from `tls.Listen`, as its reader sees it: the
records of application data still to come, in order, after which the peer
closes; `closeBuffered` tells whether the peer's close has arrived together
with the last record. -/
structure Conn where
  records : List (List Nat)
  closeBuffered : Bool
  deriving DecidableEq, Repr

/-- The method `(*tls.Conn).Read(b)`. For an empty `b` it returns `(0, nil)`.
Otherwise it skips empty records; when no record is left the peer has closed
and it returns `(0, io.EOF)`; else it copies `n = min(len(b), len(record))`
bytes of the first record and keeps the rest of that record for the next
call. When the call has used up the last record and the peer's close is
already buffered, it returns `(n, io.EOF)`, otherwise `(n, nil)`. -/
def Conn.Read (c : Conn) (b : List Nat) : (List Nat × Nat × Option GoError) × Conn :=
  if b.length = 0 then ((b, 0, none), c)
  else
    match c.records.filter (fun record => decide (record.length ≠ 0)) with
    | [] => ((b, 0, some GoError.EOF), { c with records := [] })
    | record :: rest =>
      let n := min b.length record.length
      if (record.drop n).length = 0 then
        ((record.take n ++ b.drop n, n,
          if rest.length = 0 ∧ c.closeBuffered = true then some GoError.EOF else none),
         { c with records := rest })
      else
        ((record.take n ++ b.drop n, n, none), { c with records := record.drop n :: rest })

instance : IoReader Conn := ⟨Conn.Read⟩

/-- The bytes of a connection that are still to come: its records, end to
end. -/
def Conn.pending (c : Conn) : List Nat := c.records.flatten

/-- The function `io.ReadFull(r, buf)` with `len(buf) = n` over a `Reader`: it
calls `Read` until `n` bytes are in. With `n` bytes left it returns them; with
none left it returns `io.EOF`; with some but fewer than `n` left it consumes
them and returns `io.ErrUnexpectedEOF`. For `n = 0` it reads nothing. -/
def ReadFull (r : Reader) (n : Nat) : Except GoError (List Nat) × Reader :=
  if n = 0 then (Except.ok [], r)
  else if r.length = 0 then (Except.error GoError.EOF, r)
  else if r.length < n then (Except.error GoError.ErrUnexpectedEOF, [])
  else (Except.ok (r.take n), r.drop n)

/-- The function `binary.BigEndian.Uint16`: `uint16(b[1]) | uint16(b[0])<<8`.
The two bytes occupy disjoint bits, so the bitwise or is a sum. -/
def BigEndianUint16 : List Nat → Nat
  | [b0, b1] => b0 * 2 ^ 8 + b1
  | _ => 0

/-- The function `binary.BigEndian.Uint32`:
`uint32(b[3]) | uint32(b[2])<<8 | uint32(b[1])<<16 | uint32(b[0])<<24`.
The four bytes occupy disjoint bits, so the bitwise or is a sum. -/
def BigEndianUint32 : List Nat → Nat
  | [b0, b1, b2, b3] => b0 * 2 ^ 24 + b1 * 2 ^ 16 + b2 * 2 ^ 8 + b3
  | _ => 0

/-- The function `binary.BigEndian.PutUint32`: the bytes `byte(v >> 24)`,
`byte(v >> 16)`, `byte(v >> 8)`, `byte(v)`. -/
def BigEndianPutUint32 (v : Nat) : List Nat :=
  [(v / 2 ^ 24) % 256, (v / 2 ^ 16) % 256, (v / 2 ^ 8) % 256, v % 256]

/-- The call `binary.Read(reader, binary.BigEndian, &x)` for `x` a `uint8`:
one byte through `io.ReadFull`. -/
def binaryReadUint8 (r : Reader) : Except GoError Nat × Reader :=
  match ReadFull r 1 with
  | (Except.error e, r1) => (Except.error e, r1)
  | (Except.ok bs, r1) => (Except.ok bs.headI, r1)

/-- The call `binary.Read(reader, binary.BigEndian, &x)` for `x` a `uint16`:
two bytes through `io.ReadFull`, decoded big-endian. -/
def binaryReadUint16 (r : Reader) : Except GoError Nat × Reader :=
  match ReadFull r 2 with
  | (Except.error e, r1) => (Except.error e, r1)
  | (Except.ok bs, r1) => (Except.ok (BigEndianUint16 bs), r1)

/-- The call `binary.Read(reader, binary.BigEndian, &x)` for `x` a `uint32`:
four bytes through `io.ReadFull`, decoded big-endian. -/
def binaryReadUint32 (r : Reader) : Except GoError Nat × Reader :=
  match ReadFull r 4 with
  | (Except.error e, r1) => (Except.error e, r1)
  | (Except.ok bs, r1) => (Except.ok (BigEndianUint32 bs), r1)

/-- A Go string made of the given bytes, as in the conversion `(string)(b)`. -/
def bytesToString (bs : List Nat) : String := String.mk (bs.map Char.ofNat)

/-- The digits of `encoding/hex`: `hextable = "0123456789abcdef"`. -/
def hextable : List Char :=
  ['0', '1', '2', '3', '4', '5', '6', '7', '8', '9', 'a', 'b', 'c', 'd', 'e', 'f']

/-- The function `hex.EncodeToString`: for each byte `v`, `hextable[v>>4]`
and then `hextable[v&0x0f]`. -/
def hexEncodeToString (bs : List Nat) : String :=
  String.mk (bs.flatMap fun v => [hextable.getD (v / 16) '0', hextable.getD (v % 16) '0'])

/-! ## The data model -/

/-- The struct `Item`: one tag-length-value record. -/
structure Item where
  Id : Nat
  Length : Nat
  Data : List Nat
  deriving DecidableEq, Repr

/-- The struct `Command`: opcode, length of the item bytes, items. -/
structure Command where
  Command : Nat
  Length : Nat
  Items : List Item
  deriving DecidableEq, Repr

/-- The struct `ErrorResponse`. -/
structure ErrorResponse where
  Status : Nat
  Identifier : Nat
  deriving DecidableEq, Repr

/-- The zero value of `Item`, which `make([]Item, n)` fills a slice with. -/
def Item.zero : Item := { Id := 0, Length := 0, Data := [] }

/-! ## The decoder -/

/-- The function `ParseCommandStart`: one `Read` into a 5-byte zeroed buffer,
whose count is dropped; on an error of that `Read`, the error. Otherwise the
opcode is `buf[0]` (the conversion `(uint8)(buf[0])` of a byte is the
identity) and the length is `buf[1:]` read big-endian. -/
def ParseCommandStart {σ : Type} [IoReader σ] (reader : σ) : Except GoError Command × σ :=
  match IoReader.Read reader (makeBytes 5) with
  | ((_, _, some err), reader1) => (Except.error err, reader1)
  | ((buf, _, none), reader1) =>
    match binaryReadUint32 (buf.drop 1) with
    | (Except.error err, _) => (Except.error err, reader1)
    | (Except.ok length, _) =>
      (Except.ok { Command := buf.headI, Length := length, Items := [] }, reader1)

/-- The function `parseItem`: the id (`uint8`), the length (`uint16`,
big-endian), then one `Read` into a zeroed buffer of `length` bytes, whose
count is dropped. Any error of the three reads is returned. Its one caller,
`ParseItems`, passes a `bytes.Reader`, and it is given on that reader. -/
def parseItem (reader : Reader) : Except GoError Item × Reader :=
  match binaryReadUint8 reader with
  | (Except.error err, reader1) => (Except.error err, reader1)
  | (Except.ok id, reader1) =>
    match binaryReadUint16 reader1 with
    | (Except.error err, reader2) => (Except.error err, reader2)
    | (Except.ok length, reader2) =>
      match Reader.Read reader2 (makeBytes length) with
      | ((_, _, some err), reader3) => (Except.error err, reader3)
      | ((data, _, none), reader3) =>
        (Except.ok { Id := id, Length := length, Data := data }, reader3)

/-- The loop `for bufReader.Len() > 0 { ... }` of `ParseItems`: decode an
item, stop at the first error, else append the item to `items`. The first
argument bounds the number of iterations; every iteration that goes on has
consumed at least one byte, so `bufReader.length` iterations are enough. -/
def parseItemsLoop : Nat → Reader → List Item → List Item × Option GoError
  | 0, _, items => (items, none)
  | fuel + 1, bufReader, items =>
    if bufReader.length > 0 then
      match parseItem bufReader with
      | (Except.error err, _) => (items, some err)
      | (Except.ok item, bufReader1) => parseItemsLoop fuel bufReader1 (items ++ [item])
    else (items, none)

/-- The method `(*Command).ParseItems`: one `Read` of the stream into a zeroed
buffer of `c.Length` bytes, whose count is dropped; then `c.Items` is set to
`make([]Item, 5)` and the items decoded from the buffer are appended to it.
The result is the command after the call, the error, and the stream after the
call. -/
def ParseItems {σ : Type} [IoReader σ] (c : Command) (reader : σ) :
    Command × Option GoError × σ :=
  match IoReader.Read reader (makeBytes c.Length) with
  | ((_, _, some err), reader1) => (c, some err, reader1)
  | ((buf, _, none), reader1) =>
    let r := parseItemsLoop buf.length buf (List.replicate 5 Item.zero)
    ({ c with Items := r.1 }, r.2, reader1)

/-! ## Display -/

/-- The method `(*Item).String`. The time of id 4 is printed by
`time.Time.String`, which depends on the local time zone: `fmtTime` stands
for `fun sec => time.Unix(sec, 0).String()`. The verb `%v` prints an unsigned
integer in decimal. Ids 3 and 4 panic with the error of `binary.Read`, id 5
panics when `item.Data[0]` is out of range. -/
def Item.String (fmtTime : Nat → String) (item : Item) : Except GoPanic String :=
  if item.Id = 1 then
    Except.ok ("Device Token: <" ++ hexEncodeToString item.Data ++ ">,\n")
  else if item.Id = 2 then
    Except.ok ("Payload: '" ++ bytesToString item.Data ++ "',\n")
  else if item.Id = 3 then
    match binaryReadUint32 item.Data with
    | (Except.error err, _) => Except.error (GoPanic.err err)
    | (Except.ok identifier, _) => Except.ok ("Identifier: '" ++ toString identifier ++ "',\n")
  else if item.Id = 4 then
    match binaryReadUint32 item.Data with
    | (Except.error err, _) => Except.error (GoPanic.err err)
    | (Except.ok expiration, _) => Except.ok ("Expiration: '" ++ fmtTime expiration ++ "',\n")
  else if item.Id = 5 then
    match item.Data with
    | [] => Except.error GoPanic.indexOutOfRange
    | priority :: _ => Except.ok ("Priority: '" ++ toString priority ++ "',\n")
  else Except.ok ""

/-- The loop `for i := range c.Items { output += c.Items[i].String() }`. -/
def itemsString (fmtTime : Nat → String) : List Item → String → Except GoPanic String
  | [], output => Except.ok output
  | item :: rest, output =>
    match Item.String fmtTime item with
    | Except.error p => Except.error p
    | Except.ok s => itemsString fmtTime rest (output ++ s)

/-- The method `(*Command).String`. -/
def Command.String (fmtTime : Nat → String) (c : Apns.Command) : Except GoPanic String :=
  match itemsString fmtTime c.Items
      ("Header: " ++ toString c.Command ++ ", Length: " ++ toString c.Length ++ " \x7b\n") with
  | Except.error p => Except.error p
  | Except.ok output => Except.ok (output ++ "\x7d\n")

/-! ## The error frame -/

/-- The map `PushResponses`, as its list of entries. -/
def PushResponses : List (Nat × String) :=
  [(0, "No errors"), (1, "Processing error"), (2, "Missing device token"),
   (3, "Missing topic"), (4, "Missing payload"), (5, "Invalid token size"),
   (6, "Invalid topic size"), (7, "Invalid payload size"), (8, "Invalid token"),
   (10, "Shutdown"), (255, "None (unknown)")]

/-- The index expression `m[k]` on a `map[uint8]string`: the value stored
under `k`, or the zero value `""` when `k` is not a key. -/
def mapIndex (m : List (Nat × String)) (k : Nat) : String :=
  match m.lookup k with
  | some v => v
  | none => ""

/-- The method `(*ErrorResponse).ToBytes`: the byte 8, the status byte, then
`binary.Write` of the identifier, big-endian. -/
def ErrorResponse.ToBytes (e : ErrorResponse) : List Nat :=
  [8] ++ [e.Status] ++ BigEndianPutUint32 e.Identifier

/-- The method `(*ErrorResponse).Error`. -/
def ErrorResponse.Error (e : ErrorResponse) : String :=
  mapIndex PushResponses e.Status

/-! ## The read loop of a connection -/

/-- What the read loop of `RunEchoServer` prints: `Connection closed`,
`error: <err>`, or a command (`fmt.Printf("%v\n", command)`, which calls
`command.String()`; a panic in it is caught by `fmt` and printed). -/
inductive LogEntry
  | connectionClosed
  | error (err : GoError)
  | command (c : Command) (text : Except GoPanic String)
  deriving DecidableEq, Repr

/-- The inner `for` loop of `RunEchoServer` on one connection: read a header,
on `io.EOF` print `Connection closed`, on another error print it, and in both
cases close and leave the loop; read the items, on an error print it, close
and leave the loop; else print the command and go on. The result is what was
printed until the connection was closed, or `none` when the bound on the
number of iterations was reached first. -/
def connLoop {σ : Type} [IoReader σ] (fmtTime : Nat → String) :
    Nat → σ → Option (List LogEntry)
  | 0, _ => none
  | fuel + 1, conn =>
    match ParseCommandStart conn with
    | (Except.error err, _) =>
      if err = GoError.EOF then some [LogEntry.connectionClosed]
      else some [LogEntry.error err]
    | (Except.ok command, conn1) =>
      match ParseItems command conn1 with
      | (_, some err, _) => some [LogEntry.error err]
      | (command1, none, conn2) =>
        match connLoop fmtTime fuel conn2 with
        | none => none
        | some log => some (LogEntry.command command1 (Command.String fmtTime command1) :: log)

/-! ## Measures used to state the properties -/

/-- The cumulative encoded size of a sequence of items in the words of the
data model: for each item, 1 byte of id, 2 bytes of length, and its data. -/
def specEncodedSize (items : List Item) : Nat :=
  (items.map fun item => 1 + 2 + item.Data.length).sum

/-- The number of iterations that the loop of `ParseItems` performs: the
recursion of `parseItemsLoop`, counting one for each call of `parseItem`. -/
def parseItemsLoopSteps : Nat → Reader → Nat
  | 0, _ => 0
  | fuel + 1, bufReader =>
    if bufReader.length > 0 then
      match parseItem bufReader with
      | (Except.error _, _) => 1
      | (Except.ok _, bufReader1) => 1 + parseItemsLoopSteps fuel bufReader1
    else 0

end Apns

/-! ## Lemmas on the readers -/

namespace Apns

theorem makeBytes_length (n : Nat) : (makeBytes n).length = n := by
  simp [makeBytes]

/-- The `Read` of the interface on a `bytes.Reader` is `Reader.Read`. -/
theorem IoReader_Read_Reader (r : Reader) (b : List Nat) :
    IoReader.Read r b = Reader.Read r b := rfl

/-- The `Read` of the interface on a connection is `Conn.Read`. -/
theorem IoReader_Read_Conn (c : Conn) (b : List Nat) :
    IoReader.Read c b = Conn.Read c b := rfl

/-- After a `Read` into `b` the reader has dropped `len(b)` bytes, or all of
them when fewer were left. -/
theorem Reader_Read_rest (r : Reader) (b : List Nat) :
    (Reader.Read r b).2 = r.drop b.length := by
  unfold Reader.Read
  split
  · rename_i h
    have hr : r = [] := List.length_eq_zero.mp h
    subst hr
    simp
  · simp only
    rcases Nat.le_total b.length r.length with h | h
    · rw [Nat.min_eq_left h]
    · rw [Nat.min_eq_right h, List.drop_of_length_le h, List.drop_of_length_le (Nat.le_refl _)]

/-- On a `bytes.Reader`, the bytes left after `ParseItems` are the bytes
without the first `c.Length`, whatever the outcome. -/
theorem ParseItems_rest (c : Command) (s : Reader) :
    (ParseItems c s).2.2 = s.drop c.Length := by
  have h := Reader_Read_rest s (makeBytes c.Length)
  rw [makeBytes_length, ← IoReader_Read_Reader] at h
  unfold ParseItems
  split
  · rename_i heq
    rw [heq] at h
    exact h
  · rename_i heq
    rw [heq] at h
    exact h

/-- Dropping the empty records does not change the bytes of the records. -/
theorem flatten_filter_nonempty (records : List (List Nat)) :
    (records.filter fun record => decide (record.length ≠ 0)).flatten = records.flatten := by
  induction records with
  | nil => rfl
  | cons record rest ih =>
    rw [List.filter_cons]
    split
    · simp only [List.flatten_cons, ih]
    · rename_i h
      have hr : record = [] := by simpa using h
      subst hr
      simp only [List.flatten_cons, List.nil_append]
      exact ih

/-- A `Read` on a connection takes a front part of the pending bytes, no
longer than the buffer. -/
theorem Conn_Read_consumes (c : Conn) (b : List Nat) :
    ∃ consumed : List Nat,
      c.pending = consumed ++ (Conn.Read c b).2.pending ∧ consumed.length ≤ b.length := by
  unfold Conn.Read
  by_cases hb : b.length = 0
  · rw [if_pos hb]
    exact ⟨[], rfl, Nat.zero_le _⟩
  · rw [if_neg hb]
    have hflat := flatten_filter_nonempty c.records
    rcases hf : c.records.filter (fun record => decide (record.length ≠ 0)) with
      _ | ⟨record, rest⟩
    · rw [hf] at hflat
      refine ⟨[], ?_, Nat.zero_le _⟩
      simp only [Conn.pending, List.nil_append, hf]
      exact hflat.symm
    · rw [hf] at hflat
      simp only [List.flatten_cons] at hflat
      by_cases hd : (record.drop (min b.length record.length)).length = 0
      · refine ⟨record, ?_, ?_⟩
        · simp only [hf, hd, if_true, Conn.pending]
          exact hflat.symm
        · rw [List.length_drop] at hd
          omega
      · refine ⟨record.take (min b.length record.length), ?_, ?_⟩
        · simp only [hf, hd, if_false, Conn.pending, List.flatten_cons]
          rw [← hflat, ← List.append_assoc, List.take_append_drop]
        · rw [List.length_take]
          omega

/-- On a connection, `ParseItems` takes a front part of the pending bytes of
at most `c.Length` bytes, whatever the outcome. -/
theorem ParseItems_Conn_consumes (c : Command) (conn : Conn) :
    ∃ consumed : List Nat,
      conn.pending = consumed ++ (ParseItems c conn).2.2.pending ∧
      consumed.length ≤ c.Length := by
  obtain ⟨consumed, h1, h2⟩ := Conn_Read_consumes conn (makeBytes c.Length)
  rw [makeBytes_length] at h2
  refine ⟨consumed, ?_, h2⟩
  rw [← IoReader_Read_Conn] at h1
  unfold ParseItems
  split
  · rename_i heq
    rw [heq] at h1
    exact h1
  · rename_i heq
    rw [heq] at h1
    exact h1

/-- The read loop on three connections. A header of length 0 and then the
close: the command is printed, then `Connection closed`. A header cut to
three bytes and then the close, not buffered: the same. A frame of five item
bytes that arrive in two records: a command with zero data is printed, then a
second command read from the left-over item bytes, then `Connection closed`. -/
theorem connLoop_on_connections :
    connLoop (fun _ => "") 3 ({ records := [[1, 0, 0, 0, 0]], closeBuffered := false } : Conn)
      = some
        [LogEntry.command
            { Command := 1, Length := 0,
              Items := [Item.zero, Item.zero, Item.zero, Item.zero, Item.zero] }
            (Except.ok "Header: 1, Length: 0 \x7b\n\x7d\n"),
         LogEntry.connectionClosed] ∧
    connLoop (fun _ => "") 3 ({ records := [[1, 0, 0]], closeBuffered := false } : Conn)
      = some
        [LogEntry.command
            { Command := 1, Length := 0,
              Items := [Item.zero, Item.zero, Item.zero, Item.zero, Item.zero] }
            (Except.ok "Header: 1, Length: 0 \x7b\n\x7d\n"),
         LogEntry.connectionClosed] ∧
    connLoop (fun _ => "") 4
        ({ records := [[1, 0, 0, 0, 5], [1, 0, 2], [9, 0]], closeBuffered := false } : Conn)
      = some
        [LogEntry.command
            { Command := 1, Length := 5,
              Items := [Item.zero, Item.zero, Item.zero, Item.zero, Item.zero,
                        { Id := 1, Length := 2, Data := [0, 0] }] }
            (Except.ok "Header: 1, Length: 5 \x7b\nDevice Token: <0000>,\n\x7d\n"),
         LogEntry.command
            { Command := 9, Length := 0,
              Items := [Item.zero, Item.zero, Item.zero, Item.zero, Item.zero] }
            (Except.ok "Header: 9, Length: 0 \x7b\n\x7d\n"),
         LogEntry.connectionClosed] := by
  decide

/-- The header reader on a `bytes.Reader` with five bytes or more. -/
theorem ParseCommandStart_cons5 (b0 b1 b2 b3 b4 : Nat) (rest : Reader) :
    ParseCommandStart (b0 :: b1 :: b2 :: b3 :: b4 :: rest)
      = (Except.ok { Command := b0,
                     Length := b1 * 2 ^ 24 + b2 * 2 ^ 16 + b3 * 2 ^ 8 + b4,
                     Items := [] }, rest) := by
  simp [ParseCommandStart, IoReader_Read_Reader, Reader.Read, makeBytes, binaryReadUint32,
    ReadFull, BigEndianUint32]

/-- The item decoder on a buffer of three bytes or more: the header is read,
and the data read fails with `io.EOF` exactly when nothing follows the header. -/
theorem parseItem_cons3 (id l1 l2 : Nat) (rest : Reader) :
    parseItem (id :: l1 :: l2 :: rest)
      = if rest.length = 0 then (Except.error GoError.EOF, [])
        else (Except.ok { Id := id, Length := l1 * 2 ^ 8 + l2,
                          Data := rest.take (min (l1 * 2 ^ 8 + l2) rest.length)
                            ++ (makeBytes (l1 * 2 ^ 8 + l2)).drop
                                (min (l1 * 2 ^ 8 + l2) rest.length) },
              rest.drop (min (l1 * 2 ^ 8 + l2) rest.length)) := by
  rcases rest with _ | ⟨x, t⟩
  · simp [parseItem, binaryReadUint8, binaryReadUint16, ReadFull, BigEndianUint16, Reader.Read]
  · have h : ¬ (t.length + 1 + 1 + 1 < 2) := by omega
    simp [parseItem, binaryReadUint8, binaryReadUint16, ReadFull, BigEndianUint16, Reader.Read,
      makeBytes, h]

/-- The item decoder fails on a buffer of fewer than three bytes. -/
theorem parseItem_short (r : Reader) (h : r.length < 3) :
    ∃ err r1, parseItem r = (Except.error err, r1) := by
  rcases r with _ | ⟨a, _ | ⟨b, _ | ⟨c, t⟩⟩⟩
  · exact ⟨GoError.EOF, [], by simp [parseItem, binaryReadUint8, ReadFull]⟩
  · exact ⟨GoError.EOF, [], by simp [parseItem, binaryReadUint8, binaryReadUint16, ReadFull]⟩
  · exact ⟨GoError.ErrUnexpectedEOF, [], by
      simp [parseItem, binaryReadUint8, binaryReadUint16, ReadFull]⟩
  · simp at h
    omega

/-- A successful `parseItem` has consumed the three header bytes at least. -/
theorem parseItem_ok_length (r r1 : Reader) (item : Item)
    (h : parseItem r = (Except.ok item, r1)) : r1.length + 3 ≤ r.length := by
  rcases r with _ | ⟨a, _ | ⟨b, _ | ⟨c, t⟩⟩⟩
  · obtain ⟨e, r2, he⟩ := parseItem_short [] (by simp)
    rw [he] at h
    cases h
  · obtain ⟨e, r2, he⟩ := parseItem_short [a] (by simp)
    rw [he] at h
    cases h
  · obtain ⟨e, r2, he⟩ := parseItem_short [a, b] (by simp)
    rw [he] at h
    cases h
  · rw [parseItem_cons3] at h
    split at h
    · cases h
    · simp only [Prod.mk.injEq] at h
      rw [← h.2]
      simp only [List.length_drop, List.length_cons]
      omega

/-- The bound on the iterations of the item loop is not reached: from
`bufReader.length` on, the result of `parseItemsLoop` does not depend on it. -/
theorem parseItemsLoop_fuel (fuel1 : Nat) :
    ∀ (fuel2 : Nat) (r : Reader) (items : List Item),
      r.length ≤ fuel1 → r.length ≤ fuel2 →
      parseItemsLoop fuel1 r items = parseItemsLoop fuel2 r items := by
  induction fuel1 with
  | zero =>
    intro fuel2 r items h1 _
    have hr : r = [] := List.length_eq_zero.mp (Nat.le_zero.mp h1)
    subst hr
    cases fuel2 <;> simp [parseItemsLoop]
  | succ n ih =>
    intro fuel2 r items h1 h2
    cases fuel2 with
    | zero =>
      have hr : r = [] := List.length_eq_zero.mp (Nat.le_zero.mp h2)
      subst hr
      simp [parseItemsLoop]
    | succ m =>
      simp only [parseItemsLoop]
      split
      · rcases hp : parseItem r with ⟨res, r1⟩
        cases res with
        | error e => rfl
        | ok item =>
          have hl := parseItem_ok_length r r1 item hp
          exact ih m r1 (items ++ [item]) (by omega) (by omega)
      · rfl

/-- Four bytes or more: `binary.Read` of a `uint32` takes the first four. -/
theorem binaryReadUint32_cons4 (a b c d : Nat) (t : Reader) :
    binaryReadUint32 (a :: b :: c :: d :: t)
      = (Except.ok (a * 2 ^ 24 + b * 2 ^ 16 + c * 2 ^ 8 + d), t) := by
  have h : ¬ (t.length + 1 + 1 + 1 + 1 < 4) := by omega
  simp [binaryReadUint32, ReadFull, BigEndianUint32, h]

/-- Item of id 3 with four data bytes or more: the identifier is printed. -/
theorem Item_String_id3_cons4 (fmtTime : Nat → String) (len a b c d : Nat) (t : List Nat) :
    Item.String fmtTime { Id := 3, Length := len, Data := a :: b :: c :: d :: t }
      = Except.ok ("Identifier: '" ++ toString (a * 2 ^ 24 + b * 2 ^ 16 + c * 2 ^ 8 + d)
          ++ "',\n") := by
  simp only [Item.String, binaryReadUint32_cons4]
  simp

/-! ## The claims -/

/-- C1: on the frame of opcode 1 with the single item record
`[0x01,0x00,0x02,0xAB,0xCD]`, the header is read back, but `ParseItems`
leaves six items, the five zero items of `make([]Item, 5)` and then the
decoded item: the command is not the one that was encoded. -/
theorem C1_round_trip_placeholders :
    ParseCommandStart [1, 0, 0, 0, 5, 0x01, 0x00, 0x02, 0xAB, 0xCD]
      = (Except.ok { Command := 1, Length := 5, Items := [] },
         [0x01, 0x00, 0x02, 0xAB, 0xCD]) ∧
    ParseItems { Command := 1, Length := 5, Items := [] } [0x01, 0x00, 0x02, 0xAB, 0xCD]
      = ({ Command := 1, Length := 5,
           Items := [Item.zero, Item.zero, Item.zero, Item.zero, Item.zero,
                     { Id := 1, Length := 2, Data := [0xAB, 0xCD] }] }, none, []) ∧
    (ParseItems { Command := 1, Length := 5, Items := [] } [0x01, 0x00, 0x02, 0xAB, 0xCD]).1
      ≠ { Command := 1, Length := 5, Items := [{ Id := 1, Length := 2, Data := [0xAB, 0xCD] }] } := by
  decide

/-- C2: for every status byte `s` and 32-bit identifier `n`, the frame
`ErrorResponse{s, n}.ToBytes()` has exactly 6 bytes: byte 0 is 8, byte 1 is
`s`, bytes 2..5 are `n` in big-endian order (they are bytes, and read back as
a big-endian `uint32` they give `n`); status 8 with identifier 42 gives
`[8, 8, 0, 0, 0, 42]`. -/
theorem C2_ToBytes_frame (s n : Nat) (hs : s < 256) (hn : n < 2 ^ 32) :
    (ErrorResponse.ToBytes { Status := s, Identifier := n }).length = 6 ∧
    ErrorResponse.ToBytes { Status := s, Identifier := n }
      = [8, s, n / 2 ^ 24, (n / 2 ^ 16) % 256, (n / 2 ^ 8) % 256, n % 256] ∧
    (∀ b ∈ ErrorResponse.ToBytes { Status := s, Identifier := n }, b < 256) ∧
    BigEndianUint32 ((ErrorResponse.ToBytes { Status := s, Identifier := n }).drop 2) = n ∧
    ErrorResponse.ToBytes { Status := 8, Identifier := 42 } = [8, 8, 0, 0, 0, 42] := by
  have h24 : (n / 2 ^ 24) % 256 = n / 2 ^ 24 := by
    norm_num at hn ⊢
    omega
  refine ⟨by simp [ErrorResponse.ToBytes, BigEndianPutUint32], ?_, ?_, ?_, by decide⟩
  · simp only [ErrorResponse.ToBytes, BigEndianPutUint32, h24]
    rfl
  · intro b hb
    simp only [ErrorResponse.ToBytes, BigEndianPutUint32, List.mem_append, List.mem_cons,
      List.mem_singleton, List.not_mem_nil, or_false] at hb
    rcases hb with (rfl | rfl) | rfl | rfl | rfl | rfl
    · decide
    · exact hs
    · exact Nat.mod_lt _ (by decide)
    · exact Nat.mod_lt _ (by decide)
    · exact Nat.mod_lt _ (by decide)
    · exact Nat.mod_lt _ (by decide)
  · simp only [ErrorResponse.ToBytes, BigEndianPutUint32, List.singleton_append, List.cons_append,
      List.nil_append, List.drop_succ_cons, List.drop_zero, BigEndianUint32]
    norm_num at hn ⊢
    omega

/-- C2, at status 8 and identifier 42. -/
theorem C2_ToBytes_frame_witness :
    (ErrorResponse.ToBytes { Status := 8, Identifier := 42 }).length = 6 ∧
    BigEndianUint32 ((ErrorResponse.ToBytes { Status := 8, Identifier := 42 }).drop 2) = 42 :=
  ⟨(C2_ToBytes_frame 8 42 (by decide) (by decide)).1,
   (C2_ToBytes_frame 8 42 (by decide) (by decide)).2.2.2.1⟩

/-- C3: on the connection whose stream starts with the five header bytes
`[1, 0, 0, 0, 5]`, arriving in the two records `[1, 0, 0]` and `[0, 5, 9, 9]`,
`ParseCommandStart` returns opcode 1 and length 0, not length 5, and it has
consumed three bytes, not five: the record `[0, 5, 9, 9]` is left whole. -/
theorem C3_split_header_misread :
    ParseCommandStart
        ({ records := [[1, 0, 0], [0, 5, 9, 9]], closeBuffered := false } : Conn)
      = (Except.ok { Command := 1, Length := 0, Items := [] },
         { records := [[0, 5, 9, 9]], closeBuffered := false }) ∧
    ({ Command := 1, Length := 0, Items := [] } : Command)
      ≠ { Command := 1, Length := 0 * 2 ^ 24 + 0 * 2 ^ 16 + 0 * 2 ^ 8 + 5, Items := [] } := by
  decide

/-- C4: on the 3-byte stream `[1, 2, 3]`, `ParseCommandStart` returns no
error: it returns the command read from the buffer `[1, 2, 3, 0, 0]`, opcode 1
and length `0x02030000`. -/
theorem C4_short_header_accepted :
    ParseCommandStart [1, 2, 3]
      = (Except.ok { Command := 1, Length := 0x02030000, Items := [] }, []) := by
  decide

/-- C5: the item buffer `[1, 0, 2, 0xAB]` declares two data bytes and holds
one; `parseItem` returns the item with data `[0xAB, 0]` and no error, and so
does `ParseItems`, both when the length field is 4 and when it is 5 and the
stream ends one byte early. -/
theorem C5_truncated_data_accepted :
    parseItem [1, 0, 2, 0xAB]
      = (Except.ok { Id := 1, Length := 2, Data := [0xAB, 0] }, []) ∧
    (ParseItems { Command := 1, Length := 4, Items := [] } [1, 0, 2, 0xAB]).2.1 = none ∧
    (ParseItems { Command := 1, Length := 4, Items := [] } [1, 0, 2, 0xAB]).1.Items
      = [Item.zero, Item.zero, Item.zero, Item.zero, Item.zero,
         { Id := 1, Length := 2, Data := [0xAB, 0] }] ∧
    (ParseItems { Command := 1, Length := 5, Items := [] } [1, 0, 2, 0xAB]).2.1 = none := by
  decide

/-- C6: on a command of length field 5 and the connection whose five item
bytes `[1, 0, 2, 9, 0]` arrive in the two records `[1, 0, 2]` and `[9, 0]`,
followed by the header `[1, 0, 0, 0, 0]` of a next command, `ParseItems`
returns without error having consumed three bytes, and the next
`ParseCommandStart` reads the left-over item bytes `[9, 0]`, not the bytes
behind the frame: it returns opcode 9. -/
theorem C6_next_header_reads_item_bytes :
    ParseItems { Command := 1, Length := 5, Items := [] }
        ({ records := [[1, 0, 2], [9, 0], [1, 0, 0, 0, 0]], closeBuffered := false } : Conn)
      = ({ Command := 1, Length := 5,
           Items := [Item.zero, Item.zero, Item.zero, Item.zero, Item.zero,
                     { Id := 1, Length := 2, Data := [0, 0] }] },
         none,
         { records := [[9, 0], [1, 0, 0, 0, 0]], closeBuffered := false }) ∧
    ParseCommandStart
        (ParseItems { Command := 1, Length := 5, Items := [] }
          ({ records := [[1, 0, 2], [9, 0], [1, 0, 0, 0, 0]],
             closeBuffered := false } : Conn)).2.2
      = (Except.ok { Command := 9, Length := 0, Items := [] },
         { records := [[1, 0, 0, 0, 0]], closeBuffered := false }) ∧
    ParseCommandStart ({ records := [[1, 0, 0, 0, 0]], closeBuffered := false } : Conn)
      = (Except.ok { Command := 1, Length := 0, Items := [] },
         { records := [], closeBuffered := false }) := by
  decide

/-- C7: `ErrorResponse.Error` gives each status code of the table its reason,
whatever the identifier. -/
theorem C7_Error_table (n : Nat) :
    ErrorResponse.Error { Status := 0, Identifier := n } = "No errors" ∧
    ErrorResponse.Error { Status := 1, Identifier := n } = "Processing error" ∧
    ErrorResponse.Error { Status := 2, Identifier := n } = "Missing device token" ∧
    ErrorResponse.Error { Status := 3, Identifier := n } = "Missing topic" ∧
    ErrorResponse.Error { Status := 4, Identifier := n } = "Missing payload" ∧
    ErrorResponse.Error { Status := 5, Identifier := n } = "Invalid token size" ∧
    ErrorResponse.Error { Status := 6, Identifier := n } = "Invalid topic size" ∧
    ErrorResponse.Error { Status := 7, Identifier := n } = "Invalid payload size" ∧
    ErrorResponse.Error { Status := 8, Identifier := n } = "Invalid token" ∧
    ErrorResponse.Error { Status := 10, Identifier := n } = "Shutdown" ∧
    ErrorResponse.Error { Status := 255, Identifier := n } = "None (unknown)" := by
  refine ⟨?_, ?_, ?_, ?_, ?_, ?_, ?_, ?_, ?_, ?_, ?_⟩ <;>
    simp [ErrorResponse.Error, mapIndex, PushResponses, List.lookup]

/-- C8, as stated, fails: status 9 and status 100 are not in the table, and
`Error` returns for them the empty string, not the reason of status 255. -/
theorem C8_unlisted_is_not_unknown :
    ErrorResponse.Error { Status := 9, Identifier := 0 }
      ≠ ErrorResponse.Error { Status := 255, Identifier := 0 } ∧
    ErrorResponse.Error { Status := 100, Identifier := 0 } ≠ "None (unknown)" := by
  decide

/-- C8, amended: for every status that is not a key of the table, `Error`
returns a value, the empty string (the zero value of the map lookup), which
is not the reason of status 255. -/
theorem C8_Error_unlisted (s n : Nat)
    (h : s ∉ [0, 1, 2, 3, 4, 5, 6, 7, 8, 10, 255]) :
    ErrorResponse.Error { Status := s, Identifier := n } = "" ∧
    ErrorResponse.Error { Status := s, Identifier := n }
      ≠ ErrorResponse.Error { Status := 255, Identifier := n } := by
  have hs : ErrorResponse.Error { Status := s, Identifier := n } = "" := by
    simp only [List.mem_cons, List.mem_singleton, List.not_mem_nil, or_false, not_or] at h
    obtain ⟨h0, h1, h2, h3, h4, h5, h6, h7, h8, h10, h255⟩ := h
    simp only [ErrorResponse.Error, mapIndex, PushResponses, List.lookup, beq_false_of_ne h0,
      beq_false_of_ne h1, beq_false_of_ne h2, beq_false_of_ne h3, beq_false_of_ne h4,
      beq_false_of_ne h5, beq_false_of_ne h6, beq_false_of_ne h7, beq_false_of_ne h8,
      beq_false_of_ne h10, beq_false_of_ne h255]
  have hu : ErrorResponse.Error { Status := 255, Identifier := n } = "None (unknown)" := by
    simp [ErrorResponse.Error, mapIndex, PushResponses, List.lookup]
  refine ⟨hs, ?_⟩
  rw [hs, hu]
  decide

/-- C8 amended, at status 9. -/
theorem C8_Error_unlisted_witness :
    ErrorResponse.Error { Status := 9, Identifier := 42 } = "" :=
  (C8_Error_unlisted 9 42 (by decide)).1

/-- C9: on a connection with no byte left `ParseCommandStart` returns
`io.EOF` and the read loop prints `Connection closed`, as the claim says. But
on the connection that ends after the three bytes `[1, 2, 3]`, with the close
of the peer arrived together with them, the `Read` returns `(3, io.EOF)` and
`ParseCommandStart` returns `io.EOF` as well, and the read loop prints
`Connection closed`: the outcome is the one of the stream with no byte. -/
theorem C9_partial_header_reads_as_clean_end :
    ParseCommandStart ({ records := [], closeBuffered := true } : Conn)
      = (Except.error GoError.EOF, { records := [], closeBuffered := true }) ∧
    connLoop (fun _ => "") 1 ({ records := [], closeBuffered := true } : Conn)
      = some [LogEntry.connectionClosed] ∧
    ParseCommandStart ({ records := [[1, 2, 3]], closeBuffered := true } : Conn)
      = (Except.error GoError.EOF, { records := [], closeBuffered := true }) ∧
    (ParseCommandStart ({ records := [[1, 2, 3]], closeBuffered := true } : Conn)).1
      = (ParseCommandStart ({ records := [], closeBuffered := true } : Conn)).1 ∧
    connLoop (fun _ => "") 1 ({ records := [[1, 2, 3]], closeBuffered := true } : Conn)
      = some [LogEntry.connectionClosed] := by
  decide

/-- C10, as stated, fails: the item of id 3 with the five data bytes
`[0, 0, 0, 42, 7]` has data of another length than 4, and `Item.String` does
not fail on it: it prints identifier 42, read from the first four bytes. -/
theorem C10_longer_data_accepted :
    ¬ (∀ item : Item, item.Id = 3 →
        ((∃ p, Item.String (fun _ => "") item = Except.error p) ↔ item.Data.length ≠ 4)) := by
  intro h
  have h5 := (h { Id := 3, Length := 5, Data := [0, 0, 0, 42, 7] } rfl).mpr (by decide)
  obtain ⟨p, hp⟩ := h5
  have hok : Item.String (fun _ => "") { Id := 3, Length := 5, Data := [0, 0, 0, 42, 7] }
      = Except.ok "Identifier: '42',\n" := by decide
  rw [hok] at hp
  cases hp

/-- C10, amended: for every item of id 3, `Item.String` prints the big-endian
unsigned 32-bit value of the data when the data is exactly 4 bytes (the data
`[0x00,0x00,0x00,0x2A]` gives identifier 42); it fails, by a panic, if and
only if the data has fewer than 4 bytes; on data of 4 bytes or more it prints
the big-endian value of the first 4 bytes. -/
theorem C10_identifier (fmtTime : Nat → String) (item : Item) (hid : item.Id = 3) :
    (∀ a b c d : Nat, item.Data = [a, b, c, d] →
      Item.String fmtTime item
        = Except.ok ("Identifier: '" ++ toString (a * 2 ^ 24 + b * 2 ^ 16 + c * 2 ^ 8 + d)
            ++ "',\n")) ∧
    ((∃ p, Item.String fmtTime item = Except.error p) ↔ item.Data.length < 4) ∧
    (4 ≤ item.Data.length →
      Item.String fmtTime item
        = Except.ok ("Identifier: '" ++ toString (BigEndianUint32 (item.Data.take 4))
            ++ "',\n")) ∧
    Item.String fmtTime { Id := 3, Length := 4, Data := [0x00, 0x00, 0x00, 0x2A] }
      = Except.ok "Identifier: '42',\n" := by
  obtain ⟨id, len, data⟩ := item
  simp only at hid
  subst hid
  refine ⟨?_, ?_, ?_, ?_⟩
  · intro a b c d hd
    simp only at hd
    subst hd
    exact Item_String_id3_cons4 fmtTime len a b c d []
  · rcases data with _ | ⟨a, _ | ⟨b, _ | ⟨c, _ | ⟨d, t⟩⟩⟩⟩
    · simp [Item.String, binaryReadUint32, ReadFull]
    · simp [Item.String, binaryReadUint32, ReadFull]
    · simp [Item.String, binaryReadUint32, ReadFull]
    · simp [Item.String, binaryReadUint32, ReadFull]
    · rw [Item_String_id3_cons4]
      simp
  · intro h4
    rcases data with _ | ⟨a, _ | ⟨b, _ | ⟨c, _ | ⟨d, t⟩⟩⟩⟩
    · simp at h4
    · simp at h4
    · simp at h4
    · simp at h4
    · rw [Item_String_id3_cons4]
      simp [BigEndianUint32]
  · rw [Item_String_id3_cons4]
    decide

/-- C10 amended, on the data `[0, 0, 1, 2]`. -/
theorem C10_identifier_witness :
    Item.String (fun _ => "") { Id := 3, Length := 4, Data := [0, 0, 1, 2] }
      = Except.ok ("Identifier: '" ++ toString (0 * 2 ^ 24 + 0 * 2 ^ 16 + 1 * 2 ^ 8 + 2)
          ++ "',\n") :=
  (C10_identifier (fun _ => "") { Id := 3, Length := 4, Data := [0, 0, 1, 2] } rfl).1
    0 0 1 2 rfl

/-- C11, as stated, fails: the item of id 5 with the two data bytes `[7, 9]`
has data of another length than 1, and `Item.String` does not fail on it: it
prints priority 7, the first byte. -/
theorem C11_longer_data_accepted :
    ¬ (∀ item : Item, item.Id = 5 →
        ((∃ p, Item.String (fun _ => "") item = Except.error p) ↔ item.Data.length ≠ 1)) := by
  intro h
  have h2 := (h { Id := 5, Length := 2, Data := [7, 9] } rfl).mpr (by decide)
  obtain ⟨p, hp⟩ := h2
  have hok : Item.String (fun _ => "") { Id := 5, Length := 2, Data := [7, 9] }
      = Except.ok "Priority: '7',\n" := by decide
  rw [hok] at hp
  cases hp

/-- C11, amended: for every item of id 5, `Item.String` prints the single
data byte as the priority when the data has length 1; it fails, by the
index-out-of-range panic, if and only if the data is empty; on data of one
byte or more it prints the first byte. -/
theorem C11_priority (fmtTime : Nat → String) (item : Item) (hid : item.Id = 5) :
    (∀ p : Nat, item.Data = [p] →
      Item.String fmtTime item = Except.ok ("Priority: '" ++ toString p ++ "',\n")) ∧
    ((∃ e, Item.String fmtTime item = Except.error e) ↔ item.Data = []) ∧
    (item.Data = [] → Item.String fmtTime item = Except.error GoPanic.indexOutOfRange) ∧
    (∀ (p : Nat) (t : List Nat), item.Data = p :: t →
      Item.String fmtTime item = Except.ok ("Priority: '" ++ toString p ++ "',\n")) := by
  obtain ⟨id, len, data⟩ := item
  simp only at hid
  subst hid
  refine ⟨?_, ?_, ?_, ?_⟩
  · intro p hp
    simp only at hp
    subst hp
    simp [Item.String]
  · rcases data with _ | ⟨p, t⟩
    · simp [Item.String]
    · simp [Item.String]
  · intro hd
    simp only at hd
    subst hd
    simp [Item.String]
  · intro p t hp
    simp only at hp
    subst hp
    simp [Item.String]

/-- C11 amended, on the data `[10]`. -/
theorem C11_priority_witness :
    Item.String (fun _ => "") { Id := 5, Length := 1, Data := [10] }
      = Except.ok ("Priority: '" ++ toString 10 ++ "',\n") :=
  (C11_priority (fun _ => "") { Id := 5, Length := 1, Data := [10] } rfl).1 10 rfl

/-- The data of an item that `parseItem` returns has the declared length: it
is the slice `make([]byte, item.Length)`. -/
theorem parseItem_data_length (r r1 : Reader) (item : Item)
    (h : parseItem r = (Except.ok item, r1)) : item.Data.length = item.Length := by
  rcases r with _ | ⟨a, _ | ⟨b, _ | ⟨c, t⟩⟩⟩
  · obtain ⟨e, r2, he⟩ := parseItem_short [] (by simp)
    rw [he] at h
    cases h
  · obtain ⟨e, r2, he⟩ := parseItem_short [a] (by simp)
    rw [he] at h
    cases h
  · obtain ⟨e, r2, he⟩ := parseItem_short [a, b] (by simp)
    rw [he] at h
    cases h
  · rw [parseItem_cons3] at h
    split at h
    · cases h
    · simp only [Prod.mk.injEq, Except.ok.injEq] at h
      rw [← h.1]
      simp only [List.length_append, List.length_take, List.length_drop, makeBytes_length]
      omega

/-- C12: on the buffer `[2, 0, 3, 0x41]`, which declares three data bytes and
holds one after the header, `parseItem` returns without error an item whose
data is `[0x41, 0, 0]`: it has the declared length, but it is not the bytes
that follow the header in the input. -/
theorem C12_data_zero_padded :
    parseItem [2, 0, 3, 0x41]
      = (Except.ok { Id := 2, Length := 3, Data := [0x41, 0, 0] }, []) ∧
    List.drop 3 [2, 0, 3, 0x41] = [0x41] ∧
    ([0x41, 0, 0] : List Nat) ≠ List.take 3 (List.drop 3 [2, 0, 3, 0x41]) := by
  decide

/-- C13: on a command of length field 4 and the well-formed item bytes
`[2, 0, 1, 0x41]`, `ParseItems` returns without error and the encoded sizes of
`Items` sum to 19, not 4: the five items of `make([]Item, 5)` count 3 each.
On the bytes `[1, 0, 2, 0xAB]`, whose record overruns the length field 4,
`ParseItems` returns without error as well. -/
theorem C13_encoded_size_off :
    (ParseItems { Command := 1, Length := 4, Items := [] } [2, 0, 1, 0x41]).2.1 = none ∧
    specEncodedSize
      (ParseItems { Command := 1, Length := 4, Items := [] } [2, 0, 1, 0x41]).1.Items = 19 ∧
    (ParseItems { Command := 1, Length := 4, Items := [] } [2, 0, 1, 0x41]).1.Length = 4 ∧
    (ParseItems { Command := 1, Length := 4, Items := [] } [1, 0, 2, 0xAB]).2.1 = none ∧
    specEncodedSize
      (ParseItems { Command := 1, Length := 4, Items := [] } [1, 0, 2, 0xAB]).1.Items = 20 := by
  decide

/-- C14: on a command of length field 0, with the header of a next command
waiting on the stream, `ParseItems` returns without error and `Items` has
five elements, all zero items; on a command with the one record
`[2, 0, 1, 0x41]`, `Items` has six elements, and the decoded item is the
sixth, behind five zero items. -/
theorem C14_placeholders_ahead :
    ParseItems { Command := 1, Length := 0, Items := [] } [1, 0, 0, 0, 0]
      = ({ Command := 1, Length := 0,
           Items := [Item.zero, Item.zero, Item.zero, Item.zero, Item.zero] },
         none, [1, 0, 0, 0, 0]) ∧
    (ParseItems { Command := 1, Length := 0, Items := [] } [1, 0, 0, 0, 0]).1.Items.length = 5 ∧
    (ParseItems { Command := 1, Length := 4, Items := [] } [2, 0, 1, 0x41]).1.Items
      = [Item.zero, Item.zero, Item.zero, Item.zero, Item.zero,
         { Id := 2, Length := 1, Data := [0x41] }] ∧
    (ParseItems { Command := 1, Length := 4, Items := [] } [2, 0, 1, 0x41]).2.1 = none := by
  decide

/-! ## Lemmas on the display functions -/

/-- Fewer than four bytes: `binary.Read` of a `uint32` fails. -/
theorem binaryReadUint32_short (r : Reader) (h : r.length < 4) :
    ∃ e r1, binaryReadUint32 r = (Except.error e, r1) := by
  rcases r with _ | ⟨a, _ | ⟨b, _ | ⟨c, _ | ⟨d, t⟩⟩⟩⟩
  · exact ⟨GoError.EOF, [], by simp [binaryReadUint32, ReadFull]⟩
  · exact ⟨GoError.ErrUnexpectedEOF, [], by simp [binaryReadUint32, ReadFull]⟩
  · exact ⟨GoError.ErrUnexpectedEOF, [], by simp [binaryReadUint32, ReadFull]⟩
  · exact ⟨GoError.ErrUnexpectedEOF, [], by simp [binaryReadUint32, ReadFull]⟩
  · simp at h
    omega

/-- Four bytes or more: `binary.Read` of a `uint32` succeeds. -/
theorem binaryReadUint32_long (r : Reader) (h : 4 ≤ r.length) :
    ∃ v r1, binaryReadUint32 r = (Except.ok v, r1) := by
  rcases r with _ | ⟨a, _ | ⟨b, _ | ⟨c, _ | ⟨d, t⟩⟩⟩⟩
  · simp at h
  · simp at h
  · simp at h
  · simp at h
  · exact ⟨_, _, binaryReadUint32_cons4 a b c d t⟩

/-- The loop over the items returns normally exactly when `String` does on
every item. -/
theorem itemsString_ok_iff (fmtTime : Nat → String) (items : List Item) :
    ∀ output : String,
      (∃ s, itemsString fmtTime items output = Except.ok s)
        ↔ ∀ item ∈ items, ∃ s, Item.String fmtTime item = Except.ok s := by
  induction items with
  | nil =>
    intro output
    simp [itemsString]
  | cons item rest ih =>
    intro output
    simp only [itemsString, List.mem_cons, forall_eq_or_imp]
    cases hs : Item.String fmtTime item with
    | error p => simp
    | ok t =>
      simp only [Except.ok.injEq, exists_eq', true_and]
      exact ih (output ++ t)

/-- C15, as stated, fails: `ParseItems` returns without error the command
with the record `[3, 0, 2, 1, 2]`, an identifier of two data bytes, and
`Item.String` on that item, and so `Command.String` on that command, panics
with `io.ErrUnexpectedEOF`. -/
theorem C15_malformed_identifier_panics :
    (ParseItems { Command := 1, Length := 5, Items := [] } [3, 0, 2, 1, 2]).2.1 = none ∧
    { Id := 3, Length := 2, Data := [1, 2] }
      ∈ (ParseItems { Command := 1, Length := 5, Items := [] } [3, 0, 2, 1, 2]).1.Items ∧
    Item.String (fun _ => "") { Id := 3, Length := 2, Data := [1, 2] }
      = Except.error (GoPanic.err GoError.ErrUnexpectedEOF) ∧
    Command.String (fun _ => "")
        (ParseItems { Command := 1, Length := 5, Items := [] } [3, 0, 2, 1, 2]).1
      = Except.error (GoPanic.err GoError.ErrUnexpectedEOF) := by
  decide

/-- C15, amended: leaving aside the item of id 5 with empty data,
`Item.String` returns normally on every item except one of id 3 or 4 with
fewer than 4 data bytes, on which it panics with the error of `binary.Read`;
`Command.String` returns normally exactly when `Item.String` does on every
item; and the read loop, which prints the command through `fmt`, goes on with
the next command whatever `Command.String` does. -/
theorem C15_display_faults (fmtTime : Nat → String) (item : Item)
    (h5 : ¬ (item.Id = 5 ∧ item.Data = [])) :
    ((∃ s, Item.String fmtTime item = Except.ok s)
      ↔ ¬ ((item.Id = 3 ∨ item.Id = 4) ∧ item.Data.length < 4)) ∧
    ((item.Id = 3 ∨ item.Id = 4) → item.Data.length < 4 →
      ∃ e, Item.String fmtTime item = Except.error (GoPanic.err e)) ∧
    (∀ c : Command, (∃ s, Command.String fmtTime c = Except.ok s)
      ↔ ∀ it ∈ c.Items, ∃ s, Item.String fmtTime it = Except.ok s) ∧
    (∀ (σ : Type) [IoReader σ] (fuel : Nat) (conn conn1 conn2 : σ)
        (command command1 : Command),
      ParseCommandStart conn = (Except.ok command, conn1) →
      ParseItems command conn1 = (command1, none, conn2) →
      connLoop fmtTime (fuel + 1) conn
        = (connLoop fmtTime fuel conn2).map fun log =>
            LogEntry.command command1 (Command.String fmtTime command1) :: log) := by
  refine ⟨?_, ?_, ?_, ?_⟩
  · obtain ⟨id, len, data⟩ := item
    simp only at h5
    by_cases h1 : id = 1
    · subst h1
      simp [Item.String]
    by_cases h2 : id = 2
    · subst h2
      simp [Item.String]
    by_cases h3 : id = 3
    · subst h3
      rcases Nat.lt_or_ge data.length 4 with hl | hl
      · obtain ⟨e, r1, he⟩ := binaryReadUint32_short data hl
        simp [Item.String, he, hl]
      · obtain ⟨v, r1, hv⟩ := binaryReadUint32_long data hl
        simp [Item.String, hv, Nat.not_lt.mpr hl]
    by_cases h4 : id = 4
    · subst h4
      rcases Nat.lt_or_ge data.length 4 with hl | hl
      · obtain ⟨e, r1, he⟩ := binaryReadUint32_short data hl
        simp [Item.String, he, hl]
      · obtain ⟨v, r1, hv⟩ := binaryReadUint32_long data hl
        simp [Item.String, hv, Nat.not_lt.mpr hl]
    by_cases h5' : id = 5
    · subst h5'
      rcases data with _ | ⟨p, t⟩
      · simp at h5
      · simp [Item.String]
    · simp [Item.String, h1, h2, h3, h4, h5']
  · obtain ⟨id, len, data⟩ := item
    intro hid hl
    simp only at hid hl
    obtain ⟨e, r1, he⟩ := binaryReadUint32_short data hl
    rcases hid with h3 | h4
    · subst h3
      exact ⟨e, by simp [Item.String, he]⟩
    · subst h4
      exact ⟨e, by simp [Item.String, he]⟩
  · intro c
    rw [← itemsString_ok_iff fmtTime c.Items
      ("Header: " ++ toString c.Command ++ ", Length: " ++ toString c.Length ++ " \x7b\n")]
    unfold Command.String
    cases itemsString fmtTime c.Items
      ("Header: " ++ toString c.Command ++ ", Length: " ++ toString c.Length ++ " \x7b\n") with
    | error p => simp
    | ok t => simp
  · intro σ inst fuel conn conn1 conn2 command command1 hstart hitems
    simp only [connLoop, hstart, hitems]
    cases connLoop fmtTime fuel conn2 <;> rfl

/-- C15 amended, on the identifier item with two data bytes. -/
theorem C15_display_faults_witness :
    ∃ e, Item.String (fun _ => "") { Id := 3, Length := 2, Data := [1, 2] }
      = Except.error (GoPanic.err e) :=
  (C15_display_faults (fun _ => "") { Id := 3, Length := 2, Data := [1, 2] } (by decide)).2.1
    (Or.inl rfl) (by decide)

/-- C16: `parseItem` treats the id byte as opaque. On the same bytes after
the id, with another id byte it fails with the same error or succeeds with
the same length and data, and it leaves the same bytes unread; the item it
returns carries the id byte it has read. -/
theorem C16_parseItem_id_independent (id id' : Nat) (rest : Reader) :
    (parseItem (id :: rest)
      = match parseItem (id' :: rest) with
        | (Except.error e, r) => (Except.error e, r)
        | (Except.ok item, r) => (Except.ok { item with Id := id }, r)) ∧
    (∀ (item : Item) (r : Reader), parseItem (id :: rest) = (Except.ok item, r) →
      item.Id = id ∧ parseItem (id' :: rest) = (Except.ok { item with Id := id' }, r)) ∧
    (∀ (e : GoError) (r : Reader), parseItem (id :: rest) = (Except.error e, r) →
      parseItem (id' :: rest) = (Except.error e, r)) := by
  rcases rest with _ | ⟨l1, _ | ⟨l2, t⟩⟩
  · simp [parseItem, binaryReadUint8, binaryReadUint16, ReadFull]
  · simp [parseItem, binaryReadUint8, binaryReadUint16, ReadFull]
  · rw [parseItem_cons3 id l1 l2 t, parseItem_cons3 id' l1 l2 t]
    split
    · simp
    · refine ⟨rfl, ?_, ?_⟩
      · intro item r h
        simp only [Prod.mk.injEq, Except.ok.injEq] at h
        obtain ⟨hi, hr⟩ := h
        subst hi
        subst hr
        exact ⟨rfl, rfl⟩
      · intro e r h
        simp at h

/-- C16, on the unknown id 200 against the id 1, with the bytes
`[0, 2, 0xAB, 0xCD]` after the id. -/
theorem C16_parseItem_id_independent_witness :
    ({ Id := 200, Length := 2, Data := [0xAB, 0xCD] } : Item).Id = 200 ∧
    parseItem (1 :: [0, 2, 0xAB, 0xCD])
      = (Except.ok { ({ Id := 200, Length := 2, Data := [0xAB, 0xCD] } : Item) with Id := 1 },
         []) :=
  (C16_parseItem_id_independent 200 1 [0, 2, 0xAB, 0xCD]).2.1
    { Id := 200, Length := 2, Data := [0xAB, 0xCD] } [] (by decide)

/-! ## Lemmas on the hexadecimal encoding -/

/-- Every entry of `hextable`, and the default taken beyond it, is one of the
characters `0`-`9`, `a`-`f`. -/
theorem hextable_getD_lower (n : Nat) :
    ('0' ≤ hextable.getD n '0' ∧ hextable.getD n '0' ≤ '9') ∨
    ('a' ≤ hextable.getD n '0' ∧ hextable.getD n '0' ≤ 'f') := by
  rcases Nat.lt_or_ge n 16 with h | h
  · revert n
    decide
  · have hd : hextable.getD n '0' = '0' := by
      apply List.getD_eq_default
      simpa [hextable] using h
    rw [hd]
    decide

/-- The position of the digit of a nibble in `hextable` is the nibble. -/
theorem hextable_indexOf_getD (n : Nat) (h : n < 16) :
    hextable.indexOf (hextable.getD n '0') = n := by
  revert n
  decide

/-- The characters of the encoding: the two digits of the first byte, then
the encoding of the others. -/
theorem hexEncodeToString_cons (b : Nat) (bs : List Nat) :
    (hexEncodeToString (b :: bs)).data
      = hextable.getD (b / 16) '0' :: hextable.getD (b % 16) '0' :: (hexEncodeToString bs).data := by
  simp [hexEncodeToString, List.flatMap_cons]

/-- The digits at positions `2*i` and `2*i+1` of the encoding are those of
the byte at position `i`. -/
theorem hexEncodeToString_digits (data : List Nat) :
    ∀ i : Nat, i < data.length →
      (hexEncodeToString data).data.getD (2 * i) 'x' = hextable.getD (data.getD i 0 / 16) '0' ∧
      (hexEncodeToString data).data.getD (2 * i + 1) 'x'
        = hextable.getD (data.getD i 0 % 16) '0' := by
  induction data with
  | nil =>
    intro i hi
    simp at hi
  | cons b bs ih =>
    intro i hi
    rw [hexEncodeToString_cons]
    cases i with
    | zero => simp
    | succ j =>
      have hj : j < bs.length := by simpa using hi
      have h2 : 2 * (j + 1) = 2 * j + 1 + 1 := by omega
      rw [h2]
      simp only [List.getD_cons_succ]
      exact ih j hj

/-- C17: for every item of id 1 whose data are bytes, `Item.String` prints
the data in hexadecimal between `Device Token: <` and `>`: two characters per
byte, all of them among `0`-`9` and `a`-`f`, and the characters at positions
`2*i` and `2*i+1` are the digits of the high and the low half of byte `i`;
the data `[0xAB, 0xCD]` is printed as `abcd`. -/
theorem C17_device_token_hex (fmtTime : Nat → String) (len : Nat) (data : List Nat)
    (hb : ∀ b ∈ data, b < 256) :
    Item.String fmtTime { Id := 1, Length := len, Data := data }
      = Except.ok ("Device Token: <" ++ hexEncodeToString data ++ ">,\n") ∧
    (hexEncodeToString data).length = 2 * data.length ∧
    (∀ c ∈ (hexEncodeToString data).data,
      ('0' ≤ c ∧ c ≤ '9') ∨ ('a' ≤ c ∧ c ≤ 'f')) ∧
    (∀ i : Nat, i < data.length →
      hextable.indexOf ((hexEncodeToString data).data.getD (2 * i) 'x') * 16
        + hextable.indexOf ((hexEncodeToString data).data.getD (2 * i + 1) 'x')
        = data.getD i 0) ∧
    hexEncodeToString [0xAB, 0xCD] = "abcd" ∧
    Item.String fmtTime { Id := 1, Length := 2, Data := [0xAB, 0xCD] }
      = Except.ok "Device Token: <abcd>,\n" := by
  refine ⟨by simp [Item.String], ?_, ?_, ?_, by decide, ?_⟩
  · simp only [hexEncodeToString, String.length]
    induction data with
    | nil => rfl
    | cons b bs ih =>
      have hbs : ∀ x ∈ bs, x < 256 := fun x hx => hb x (List.mem_cons_of_mem b hx)
      simp only [List.flatMap_cons, List.length_append, List.length_cons, List.length_nil,
        ih hbs]
      omega
  · intro c hc
    simp only [hexEncodeToString, List.mem_flatMap, List.mem_cons, List.mem_singleton,
      List.not_mem_nil, or_false] at hc
    obtain ⟨v, _, hv | hv⟩ := hc
    · rw [hv]
      exact hextable_getD_lower (v / 16)
    · rw [hv]
      exact hextable_getD_lower (v % 16)
  · intro i hi
    obtain ⟨h1, h2⟩ := hexEncodeToString_digits data i hi
    have hlt : data.getD i 0 < 256 := by
      rw [List.getD_eq_getElem data 0 hi]
      exact hb _ (List.getElem_mem hi)
    rw [h1, h2, hextable_indexOf_getD _ (by omega), hextable_indexOf_getD _ (by omega)]
    omega
  · have h : hexEncodeToString [0xAB, 0xCD] = "abcd" := by decide
    have h1 : Item.String fmtTime { Id := 1, Length := 2, Data := [0xAB, 0xCD] }
        = Except.ok ("Device Token: <" ++ hexEncodeToString [0xAB, 0xCD] ++ ">,\n") := by
      simp [Item.String]
    rw [h1, h]
    decide

/-- C17, on the token bytes `[0x0F, 0xA0]`. -/
theorem C17_device_token_hex_witness :
    Item.String (fun _ => "") { Id := 1, Length := 2, Data := [0x0F, 0xA0] }
      = Except.ok ("Device Token: <" ++ hexEncodeToString [0x0F, 0xA0] ++ ">,\n") ∧
    (hexEncodeToString [0x0F, 0xA0]).length = 2 * [0x0F, 0xA0].length :=
  ⟨(C17_device_token_hex (fun _ => "") 2 [0x0F, 0xA0] (by decide)).1,
   (C17_device_token_hex (fun _ => "") 2 [0x0F, 0xA0] (by decide)).2.1⟩

/-- C18: on the stream made of the two well-formed frames
`[1, 0,0,0,5, 1,0,2,0xAB,0xCD]` and `[1, 0,0,0,4, 2,0,1,0x41]`, the read loop
prints two commands, in stream order, and then `Connection closed`; but the
first command has six items and the second six, five zero items ahead of the
item of the frame: they are not the commands of the frames. -/
theorem C18_two_frames_with_placeholders :
    connLoop (fun _ => "") 3 [1, 0, 0, 0, 5, 1, 0, 2, 0xAB, 0xCD, 1, 0, 0, 0, 4, 2, 0, 1, 0x41]
      = some
        [LogEntry.command
            { Command := 1, Length := 5,
              Items := [Item.zero, Item.zero, Item.zero, Item.zero, Item.zero,
                        { Id := 1, Length := 2, Data := [0xAB, 0xCD] }] }
            (Except.ok "Header: 1, Length: 5 \x7b\nDevice Token: <abcd>,\n\x7d\n"),
         LogEntry.command
            { Command := 1, Length := 4,
              Items := [Item.zero, Item.zero, Item.zero, Item.zero, Item.zero,
                        { Id := 2, Length := 1, Data := [0x41] }] }
            (Except.ok "Header: 1, Length: 4 \x7b\nPayload: 'A',\n\x7d\n"),
         LogEntry.connectionClosed] ∧
    ({ Command := 1, Length := 5,
       Items := [Item.zero, Item.zero, Item.zero, Item.zero, Item.zero,
                 { Id := 1, Length := 2, Data := [0xAB, 0xCD] }] } : Command)
      ≠ { Command := 1, Length := 5, Items := [{ Id := 1, Length := 2, Data := [0xAB, 0xCD] }] } := by
  decide

/-! ## Termination of the item loop -/

/-- The loop of `ParseItems` calls `parseItem` at most once per byte of the
buffer, whatever the bound on the recursion. -/
theorem parseItemsLoopSteps_le (fuel : Nat) :
    ∀ r : Reader, parseItemsLoopSteps fuel r ≤ r.length := by
  induction fuel with
  | zero =>
    intro r
    simp [parseItemsLoopSteps]
  | succ n ih =>
    intro r
    simp only [parseItemsLoopSteps]
    split
    · rename_i hpos
      rcases hp : parseItem r with ⟨res, r1⟩
      cases res with
      | error e =>
        simp only
        omega
      | ok item =>
        have hl := parseItem_ok_length r r1 item hp
        have hi := ih r1
        simp only
        omega
    · exact Nat.zero_le _

/-- C20: the item loop of `ParseItems` terminates. A call of `parseItem` that
returns no error leaves strictly fewer bytes; the loop calls `parseItem` at
most `len(buf)` times, whatever the bound on the recursion; from the bound
`len(buf)` on the result of the loop does not depend on the bound; and
`ParseItems`, which runs the loop on a buffer of `c.Length` bytes, returns the
result that every bound from `c.Length` on gives. -/
theorem C20_item_loop_terminates (r : Reader) (items : List Item) :
    (∀ (item : Item) (r1 : Reader), parseItem r = (Except.ok item, r1) →
      r1.length < r.length) ∧
    (∀ fuel : Nat, parseItemsLoopSteps fuel r ≤ r.length) ∧
    (∀ fuel : Nat, r.length ≤ fuel →
      parseItemsLoop fuel r items = parseItemsLoop r.length r items) ∧
    (∀ (c : Command) (s s1 buf : Reader) (n : Nat),
      Reader.Read s (makeBytes c.Length) = ((buf, n, none), s1) →
      buf.length = c.Length ∧
      ∀ fuel : Nat, c.Length ≤ fuel →
        ParseItems c s
          = ({ c with Items := (parseItemsLoop fuel buf (List.replicate 5 Item.zero)).1 },
             (parseItemsLoop fuel buf (List.replicate 5 Item.zero)).2, s1)) := by
  refine ⟨?_, ?_, ?_, ?_⟩
  · intro item r1 h
    have hl := parseItem_ok_length r r1 item h
    omega
  · intro fuel
    exact parseItemsLoopSteps_le fuel r
  · intro fuel hf
    exact parseItemsLoop_fuel fuel r.length r items hf (Nat.le_refl _)
  · intro c s s1 buf n hread
    have hlen : buf.length = c.Length := by
      unfold Reader.Read at hread
      split at hread
      · simp at hread
      · simp only [Prod.mk.injEq] at hread
        rw [← hread.1.1]
        simp only [List.length_append, List.length_take, List.length_drop, makeBytes_length]
        omega
    refine ⟨hlen, ?_⟩
    intro fuel hf
    have hfuel := parseItemsLoop_fuel fuel buf.length buf (List.replicate 5 Item.zero)
      (by omega) (Nat.le_refl _)
    simp only [ParseItems, IoReader_Read_Reader, hread]
    rw [hfuel]

/-- C20, on the buffer `[1, 0, 2, 0xAB, 0xCD]`. -/
theorem C20_item_loop_terminates_witness :
    ([] : Reader).length < [1, 0, 2, 0xAB, 0xCD].length ∧
    parseItemsLoop 100 [1, 0, 2, 0xAB, 0xCD] []
      = parseItemsLoop [1, 0, 2, 0xAB, 0xCD].length [1, 0, 2, 0xAB, 0xCD] [] :=
  ⟨(C20_item_loop_terminates [1, 0, 2, 0xAB, 0xCD] []).1
      { Id := 1, Length := 2, Data := [0xAB, 0xCD] } [] (by decide),
   (C20_item_loop_terminates [1, 0, 2, 0xAB, 0xCD] []).2.2.1 100 (by decide)⟩

end Apns
